import Mathlib

/-!
Verification of the AI4All scheme-matching subsystem.

The repository ships a WhatsApp-bot front end (`whatsapp-bot/src`), the
Postgres schema (`whatsapp-bot/src/db/schema.sql`), the `User` model with
`saveSchemeMatch`, and callers of a backend scheme-search endpoint
(`backendService.js`, `schemeService.js`).  The eligibility-aware matching
engine itself (EligibilityFilter, EmbeddingIndex, KeywordScorer,
ScoreFusion, MatchOrchestrator) is not part of the shipped sources: only
its schema, its callers and its persistence primitive are.  Definitions
below that embed shipped code say so in their doc comment; definitions for
the missing engine are marked `Modelled from the spec:` and follow the
specification text (sections 3, 4 and 5 of spec.md) literally.

Scores are modelled as rational numbers; machine floats are out of scope.
-/

/-- Gender of a scheme or user.  The schema constrains user gender to
male/female; a scheme gender of `any` passes every profile. -/
inductive Gender where
  | male : Gender
  | female : Gender
  | any : Gender
deriving DecidableEq, Repr

/-- Modelled from the spec: the Scheme record of section 3 (the shipped
`schemes` table in schema.sql carries id, slug, name, state, category,
description, caste and the four boolean flags; `min_age`, `max_age`,
`gender` and `income_limit` appear only in the spec's data model, with
unset meaning unbounded). -/
structure Scheme where
  id : Nat
  slug : String
  name : String
  state : String
  category : String
  description : String
  caste : List String
  requires_minority : Bool
  requires_differently_abled : Bool
  requires_bpl : Bool
  requires_student : Bool
  min_age : Option Nat
  max_age : Option Nat
  gender : Gender
  income_limit : Option ℚ
deriving DecidableEq, Repr

/-- UserProfile from section 3 of the spec, mirroring the `users` table of
schema.sql: every field is optional and an unset field never causes a
hard-constraint failure. -/
structure UserProfile where
  age : Option Nat
  gender : Option Gender
  state : Option String
  caste : List String
  income : Option ℚ
  is_minority : Option Bool
  is_differently_abled : Option Bool
  is_bpl : Option Bool
  is_student : Option Bool
deriving DecidableEq, Repr

/-- Modelled from the spec: the IndexSnapshot of section 3, an immutable
versioned bundle of scheme data from which every search reads. -/
structure IndexSnapshot where
  version : Nat
  schemes : List Scheme
deriving DecidableEq, Repr

/-- MatchResult from section 3 of the spec: scheme id, slug, component
scores for explainability, final score, provenance string and 0-based
rank.  `matched_by` is a string because the shipped schema stores it as
`VARCHAR(50)` free text. -/
structure MatchResult where
  scheme_id : Nat
  slug : String
  similarity : Option ℚ
  keyword : ℚ
  eligibility : ℚ
  finalScore : ℚ
  matched_by : String
  rank : Nat
deriving DecidableEq, Repr

/-- Per-call options of section 4.5: `limit` truncates the ordered list,
`minScore` filters before truncation.  The `deadline` option concerns real
time and is not modelled. -/
structure SearchOptions where
  limit : Nat
  minScore : Option ℚ
deriving DecidableEq, Repr

/-- Default options: `limit` defaults to 3, no score threshold. -/
def defaultOptions : SearchOptions :=
  { limit := 3, minScore := none }

/-- Result of a search call: ranked matches plus the degraded flag of
section 4.5. -/
structure SearchOutcome where
  results : List MatchResult
  degraded : Bool
deriving DecidableEq, Repr

/-- Modelled from the spec: outcome of `EligibilityFilter.filter`
(section 4.1). -/
structure FilterOutcome where
  admitted : Bool
  reasons : List String
  softScore : ℚ
deriving DecidableEq, Repr

/-- Modelled from the spec: age hard constraint of section 4.1 — bounds
apply only when both the scheme bound and the profile age are set; an
unset profile age never excludes. -/
def ageOk (s : Scheme) (p : UserProfile) : Bool :=
  match p.age with
  | none => true
  | some a =>
    (match s.min_age with
     | none => true
     | some lo => decide (lo ≤ a)) &&
    (match s.max_age with
     | none => true
     | some hi => decide (a ≤ hi))

/-- Modelled from the spec: gender hard constraint of section 4.1 —
scheme gender `any` always passes, otherwise the profile gender must equal
the scheme gender when set. -/
def genderOk (s : Scheme) (p : UserProfile) : Bool :=
  match s.gender, p.gender with
  | Gender.any, _ => true
  | _, none => true
  | g, some pg => decide (g = pg)

/-- Lower-cased character data of a string, used for the case-insensitive
state comparison and for tokenization. -/
def lowerData (s : String) : List Char :=
  s.data.map Char.toLower

/-- Modelled from the spec: state hard constraint of section 4.1 — an
empty scheme state (national) always passes, otherwise case-insensitive
equality with the profile state when set. -/
def stateOk (s : Scheme) (p : UserProfile) : Bool :=
  if s.state = "" then true
  else
    match p.state with
    | none => true
    | some st => decide (lowerData s.state = lowerData st)

/-- Modelled from the spec: income hard constraint of section 4.1. -/
def incomeOk (s : Scheme) (p : UserProfile) : Bool :=
  match s.income_limit, p.income with
  | some lim, some inc => decide (inc ≤ lim)
  | _, _ => true

/-- Modelled from the spec: a categorical requirement flag (section 4.1
hard constraint, with the section 3 rule that an unset profile field never
causes a hard-constraint failure). -/
def flagOk (req : Bool) (hv : Option Bool) : Bool :=
  !req || hv.getD true

/-- Modelled from the spec: conjunction of all hard constraints of
section 4.1. -/
def hardOk (s : Scheme) (p : UserProfile) : Bool :=
  ageOk s p && genderOk s p && stateOk s p && incomeOk s p &&
    flagOk s.requires_minority p.is_minority &&
    flagOk s.requires_differently_abled p.is_differently_abled &&
    flagOk s.requires_bpl p.is_bpl &&
    flagOk s.requires_student p.is_student

/-- Modelled from the spec: names of the failed hard constraints, the
`reasons` component of the filter outcome. -/
def failReasons (s : Scheme) (p : UserProfile) : List String :=
  (if ageOk s p then [] else ["age"]) ++
    (if genderOk s p then [] else ["gender"]) ++
    (if stateOk s p then [] else ["state"]) ++
    (if incomeOk s p then [] else ["income"]) ++
    (if flagOk s.requires_minority p.is_minority then [] else ["minority"]) ++
    (if flagOk s.requires_differently_abled p.is_differently_abled then []
     else ["differently_abled"]) ++
    (if flagOk s.requires_bpl p.is_bpl then [] else ["bpl"]) ++
    (if flagOk s.requires_student p.is_student then [] else ["student"])

/-- Jaccard-style overlap of two lists viewed as sets: intersection size
over union size, 0 when the union is empty (section 4.3). -/
def jaccard {α : Type} [DecidableEq α] (a b : List α) : ℚ :=
  let a' := a.dedup
  let b' := b.dedup
  let u := (a'.union b').length
  if u = 0 then 0 else ((a'.inter b').length : ℚ) / u

/-- Modelled from the spec: caste-list overlap fraction of section 4.1,
0 if either list is empty. -/
def casteOverlap (s : Scheme) (p : UserProfile) : ℚ :=
  jaccard s.caste p.caste

/-- Modelled from the spec: number of matched non-required categorical
flags (section 4.1 soft scoring). -/
def matchedFlagCount (s : Scheme) (p : UserProfile) : Nat :=
  (if !s.requires_minority && decide (p.is_minority = some true) then 1 else 0) +
    (if !s.requires_differently_abled &&
        decide (p.is_differently_abled = some true) then 1 else 0) +
    (if !s.requires_bpl && decide (p.is_bpl = some true) then 1 else 0) +
    (if !s.requires_student && decide (p.is_student = some true) then 1 else 0)

/-- Modelled from the spec: soft eligibility score of section 4.1, a fixed
weighted sum normalized into [0,1]; the weights are the design default of
section 9, chosen so that a profile and scheme with nothing set score the
neutral 1/2. -/
def softScoreFn (s : Scheme) (p : UserProfile) : ℚ :=
  1/2 + 1/4 * casteOverlap s p + 1/16 * (matchedFlagCount s p : ℚ)

/-- Modelled from the spec: `EligibilityFilter.filter` of section 4.1. -/
def eligFilter (s : Scheme) (p : UserProfile) : FilterOutcome :=
  { admitted := hardOk s p
    reasons := failReasons s p
    softScore := softScoreFn s p }

/-- Splits lower-cased character data into maximal alphanumeric runs
(section 4.3: case-insensitive, whitespace/punctuation-tokenized). -/
def splitRuns (tok : List Char) (acc : List (List Char)) :
    List Char → List (List Char)
  | [] => (tok.reverse :: acc).reverse
  | c :: cs =>
    if c.isAlphanum then splitRuns (c :: tok) acc cs
    else splitRuns [] (tok.reverse :: acc) cs

/-- Token set of a character sequence: lower-case, split on
non-alphanumeric characters, empty runs dropped, duplicates removed. -/
def tokenize (cs : List Char) : List (List Char) :=
  ((splitRuns [] [] (cs.map Char.toLower)).filter (fun t => !t.isEmpty)).dedup

/-- Concatenated text fields a scheme is keyword-matched on: name,
category and description (section 4.3). -/
def schemeText (s : Scheme) : List Char :=
  s.name.data ++ ' ' :: s.category.data ++ ' ' :: s.description.data

/-- Modelled from the spec: `KeywordScorer.score` of section 4.3 — Jaccard
overlap of the query tokens and the scheme text tokens. -/
def keywordScore (q : String) (s : Scheme) : ℚ :=
  jaccard (tokenize q.data) (tokenize (schemeText s))

/-- Modelled from the spec: score fusion of section 4.4 — weights 1/2,
1/5, 3/10 when similarity is present; with similarity absent the remaining
weights are renormalized proportionally to 2/5 and 3/5. -/
def fuse (sim : Option ℚ) (k e : ℚ) : ℚ :=
  match sim with
  | some s => 1/2 * s + 1/5 * k + 3/10 * e
  | none => 2/5 * k + 3/5 * e

/-- The four provenance values of the spec's closed enumeration
(section 3 and the section 9 design note). -/
def matchedByValues : List String :=
  ["vector", "keyword", "rule", "hybrid"]

/-- Indicator that a weighted contribution is within 10% of the top
contribution, used for the `hybrid` test of section 4.4. -/
def contribNear (top c : ℚ) : Nat :=
  if top - c ≤ top/10 then 1 else 0

/-- Modelled from the spec: `matched_by` assignment of section 4.4.
With similarity absent only keyword and rule matching occurred, so the
value is `keyword` or `rule` depending on which weighted term contributes
more (scenario 6 and the degrade property of section 8).  With similarity
present: `rule` when similarity and keyword are both 0, `hybrid` when at
least two weighted contributions are within 10% of the top one, otherwise
the dominant signal. -/
def matchedBy (sim : Option ℚ) (k e : ℚ) : String :=
  match sim with
  | none =>
    if k = 0 then "rule"
    else if 3/5 * e ≤ 2/5 * k then "keyword"
    else "rule"
  | some s =>
    if s = 0 ∧ k = 0 then "rule"
    else
      let cv := 1/2 * s
      let ck := 1/5 * k
      let ce := 3/10 * e
      let top := max cv (max ck ce)
      let near := contribNear top cv + contribNear top ck + contribNear top ce
      if 2 ≤ near then "hybrid"
      else if cv = top ∧ 0 < s then "vector"
      else if ck = top ∧ s = 0 then "keyword"
      else "hybrid"

/-- Boolean lexicographic order on character data, the deterministic
ascending-slug tie break of section 4.4. -/
def lexLE : List Char → List Char → Bool
  | [], _ => true
  | _ :: _, [] => false
  | c :: cs, d :: ds =>
    if c.toNat = d.toNat then lexLE cs ds
    else decide (c.toNat < d.toNat)

/-- Tie-break rank for the presence of a non-zero similarity
contribution: 0 when present and non-zero, 1 otherwise. -/
def simRank (m : MatchResult) : Nat :=
  if m.similarity.getD 0 = 0 then 1 else 0

/-- Modelled from the spec: the final ordering of section 4.4 —
descending finalScore, ties broken by presence of a non-zero similarity
contribution, then ascending slug. -/
def rankLE (a b : MatchResult) : Prop :=
  b.finalScore < a.finalScore ∨
    (b.finalScore = a.finalScore ∧
      (simRank a < simRank b ∨
        (simRank a = simRank b ∧ lexLE a.slug.data b.slug.data = true)))

instance : DecidableRel rankLE := fun a b => by
  unfold rankLE
  infer_instance

/-- Modelled from the spec: one scored, admitted candidate (sections 4.1,
4.3, 4.4).  Returns `none` when the eligibility filter rejects the scheme,
so rejected schemes never reach the output. -/
def scoreScheme (q : String) (p : UserProfile) (sim : Option ℚ)
    (s : Scheme) : Option MatchResult :=
  let fr := eligFilter s p
  if fr.admitted then
    let k := keywordScore q s
    some
      { scheme_id := s.id
        slug := s.slug
        similarity := sim
        keyword := k
        eligibility := fr.softScore
        finalScore := fuse sim k fr.softScore
        matched_by := matchedBy sim k fr.softScore
        rank := 0 }
  else none

/-- Modelled from the spec: the candidate pass of sections 4.4 and 4.5.
`vc` is the output of the external embedder plus `EmbeddingIndex.search`
(`none` when the embedder or index is unavailable): pairs of scheme id and
similarity.  Vector candidates and the keyword/rule pass over the whole
snapshot are merged by scheme id (deduplicated), each surviving id is
eligibility-filtered and scored once. -/
def scoredCandidates (q : String) (p : UserProfile)
    (vc : Option (List (Nat × ℚ))) (snap : IndexSnapshot) :
    List MatchResult :=
  let cands := vc.getD []
  let ids := (cands.map Prod.fst ++ snap.schemes.map Scheme.id).dedup
  ids.filterMap (fun i =>
    match snap.schemes.find? (fun s => s.id == i) with
    | some s =>
      scoreScheme q p ((cands.find? (fun c => c.1 == i)).map Prod.snd) s
    | none => none)

/-- Modelled from the spec: the admitted candidates in final order
(section 4.4), sorted by the deterministic tie-break relation. -/
def orderedResults (q : String) (p : UserProfile)
    (vc : Option (List (Nat × ℚ))) (snap : IndexSnapshot) :
    List MatchResult :=
  List.insertionSort rankLE (scoredCandidates q p vc snap)

/-- Assigns 0-based ranks down the ordered list. -/
def assignRanks (n : Nat) : List MatchResult → List MatchResult
  | [] => []
  | m :: ms => { m with rank := n } :: assignRanks (n + 1) ms

/-- Modelled from the spec: `MatchOrchestrator.searchSchemes` of
section 4.5.  `vc` abstracts the external embedder and index call that
happens before the core pipeline; `none` means that call failed, in which
case only keyword/rule matching occurs and the outcome is degraded.
`minScore` filters before `limit` truncates (section 4.4). -/
def searchSchemes (q : String) (p : UserProfile) (opts : SearchOptions)
    (vc : Option (List (Nat × ℚ))) (snap : IndexSnapshot) :
    SearchOutcome :=
  let sorted := orderedResults q p vc snap
  let filtered :=
    match opts.minScore with
    | some t => sorted.filter (fun (m : MatchResult) => decide (t ≤ m.finalScore))
    | none => sorted
  { results := assignRanks 0 (filtered.take opts.limit)
    degraded := vc.isNone }

/-- One row of the `user_scheme_matches` table of schema.sql. -/
structure SchemeMatchRow where
  user_id : Nat
  scheme_id : Nat
  score : ℚ
  matched_by : String
deriving DecidableEq, Repr

/-- Embedding of `User.saveSchemeMatch` (whatsapp-bot `User` model): one
INSERT into `user_scheme_matches`.  The schema declares `matched_by` as
`VARCHAR(50)` with no CHECK constraint and the method performs no
validation, so any string of at most 50 characters is stored; `none`
models the thrown database error for an over-long value. -/
def saveSchemeMatch (userId schemeId : Nat) (score : ℚ)
    (matchedBy : String) (table : List SchemeMatchRow) :
    Option (List SchemeMatchRow) :=
  if matchedBy.length ≤ 50 then
    some (table ++ [{ user_id := userId, scheme_id := schemeId,
                      score := score, matched_by := matchedBy }])
  else none

/-- Modelled from the spec: best-effort persistence of section 4.5 and
section 7 — the orchestrator hands the results to the external
MatchRecorder and ignores its outcome, logging failures. -/
def recordMatches (persist : List MatchResult → Except String Unit)
    (out : SearchOutcome) : SearchOutcome :=
  match persist out.results with
  | Except.ok _ => out
  | Except.error _ => out

/-- Modelled from the spec: the full orchestrator call including the
best-effort persistence step. -/
def searchAndRecord (persist : List MatchResult → Except String Unit)
    (q : String) (p : UserProfile) (opts : SearchOptions)
    (vc : Option (List (Nat × ℚ))) (snap : IndexSnapshot) :
    SearchOutcome :=
  recordMatches persist (searchSchemes q p opts vc snap)

/-- Scheme fields used by the bot-side formatter in schemeService.js. -/
structure SchemeInfo where
  name : String
  briefDescription : String
  benefits : String
  applicationProcess : String
deriving DecidableEq, Repr

/-- The fixed user-facing string returned by schemeService.js when the
backend reports no schemes. -/
def noSchemesMsg : String :=
  "No schemes found matching your query. Please try with different keywords."

/-- Embedding of the per-scheme lines of `formatSchemeResponse` in
schemeService.js, numbering from `i + 1`. -/
def schemeLinesFrom (i : Nat) : List SchemeInfo → String
  | [] => ""
  | s :: ss =>
    "*" ++ Nat.repr (i + 1) ++ ". " ++ s.name ++ "*\n" ++
      "📝 Description: " ++ s.briefDescription ++ "\n" ++
      "💰 Benefits: " ++ s.benefits ++ "\n" ++
      "📱 How to apply: " ++ s.applicationProcess ++ "\n\n" ++
      schemeLinesFrom (i + 1) ss

/-- Embedding of `formatSchemeResponse` in schemeService.js: header, the
first three schemes (`schemes.slice(0, 3)`), footer. -/
def formatSchemeResponse (schemes : List SchemeInfo) : String :=
  "🏛️ *Found Government Schemes:*\n\n" ++
    schemeLinesFrom 0 (schemes.take 3) ++
    "\nTo know more, please reply with the scheme number."

/-- Embedding of `searchSchemes` in schemeService.js.  The argument is the
outcome of the backend GET: `Except.error` when the request threw,
otherwise the response data (`none` for a missing body).  An empty or
missing body yields the fixed no-results message; a request failure is
logged and rethrown as the fixed error. -/
def searchSchemesBot (resp : Except String (Option (List SchemeInfo))) :
    Except String String :=
  match resp with
  | Except.error _ => Except.error "Failed to search schemes"
  | Except.ok none => Except.ok noSchemesMsg
  | Except.ok (some []) => Except.ok noSchemesMsg
  | Except.ok (some schemes) =>
    Except.ok (formatSchemeResponse schemes)

/-- Concrete national agriculture scheme used to evaluate the theorems on
explicit inputs. -/
def schemeA : Scheme :=
  { id := 1, slug := "abc", name := "farm aid", state := "", category := "agri",
    description := "help for farmers", caste := [],
    requires_minority := false, requires_differently_abled := false,
    requires_bpl := false, requires_student := false,
    min_age := some 18, max_age := some 60, gender := Gender.any,
    income_limit := none }

/-- Concrete women-only scheme used to evaluate the theorems on explicit
inputs. -/
def schemeB : Scheme :=
  { id := 2, slug := "xyz", name := "study grant", state := "", category := "edu",
    description := "grant for women students", caste := [],
    requires_minority := false, requires_differently_abled := false,
    requires_bpl := false, requires_student := false,
    min_age := none, max_age := none, gender := Gender.female,
    income_limit := none }

/-- Concrete two-scheme snapshot. -/
def snap0 : IndexSnapshot :=
  { version := 1, schemes := [schemeA, schemeB] }

/-- Profile with every field unset. -/
def emptyProfile : UserProfile :=
  { age := none, gender := none, state := none, caste := [], income := none,
    is_minority := none, is_differently_abled := none, is_bpl := none,
    is_student := none }

/-- Profile of a 70-year-old man. -/
def oldMale : UserProfile :=
  { emptyProfile with age := some 70, gender := some Gender.male }

/-- Profile with only the gender set to male. -/
def maleProfile : UserProfile :=
  { emptyProfile with gender := some Gender.male }

/-- The rule-matched result that the empty profile gets for scheme A on a
query with no keyword overlap and no vector candidates. -/
def matchRule0 : MatchResult :=
  { scheme_id := 1, slug := "abc", similarity := none, keyword := 0,
    eligibility := 1/2, finalScore := 3/10, matched_by := "rule", rank := 0 }

/-- The vector-matched result that the empty profile gets for scheme A on
a query with no keyword overlap and similarity 1/2. -/
def matchVec1 : MatchResult :=
  { scheme_id := 1, slug := "abc", similarity := some (1/2), keyword := 0,
    eligibility := 1/2, finalScore := 2/5, matched_by := "vector", rank := 0 }

/-- Decides whether a bot backend response is the failure case. -/
def isErr {eps alpha : Type} : Except eps alpha → Bool
  | Except.error _ => true
  | Except.ok _ => false

/-- Totality of the lexicographic slug order. -/
theorem lexLE_total : ∀ a b : List Char, lexLE a b = true ∨ lexLE b a = true := by
  intro a
  induction a with
  | nil => intro b; left; rfl
  | cons c cs ih =>
    intro b
    cases b with
    | nil => right; rfl
    | cons d ds =>
      by_cases h : c.toNat = d.toNat
      · rcases ih ds with h1 | h1
        · left; simp [lexLE, h, h1]
        · right; simp [lexLE, h.symm, h1]
      · rcases Nat.lt_or_ge c.toNat d.toNat with hlt | hge
        · left; simp [lexLE, h, hlt]
        · have hgt : d.toNat < c.toNat := by omega
          have hne : d.toNat ≠ c.toNat := by omega
          right; simp [lexLE, hne, hgt]

/-- Transitivity of the lexicographic slug order. -/
theorem lexLE_trans :
    ∀ a b c : List Char,
      lexLE a b = true → lexLE b c = true → lexLE a c = true := by
  intro a
  induction a with
  | nil => intro b c _ _; rfl
  | cons x xs ih =>
    intro b c hab hbc
    cases b with
    | nil => simp [lexLE] at hab
    | cons y ys =>
      cases c with
      | nil => simp [lexLE] at hbc
      | cons z zs =>
        by_cases hxy : x.toNat = y.toNat
        · by_cases hyz : y.toNat = z.toNat
          · have hxz : x.toNat = z.toNat := hxy.trans hyz
            simp [lexLE, hxy] at hab
            simp [lexLE, hyz] at hbc
            simp [lexLE, hxz]
            exact ih ys zs hab hbc
          · simp [lexLE, hyz] at hbc
            have hxz : x.toNat < z.toNat := by omega
            have hne : x.toNat ≠ z.toNat := by omega
            simp [lexLE, hne, hxz]
        · simp [lexLE, hxy] at hab
          by_cases hyz : y.toNat = z.toNat
          · have hxz : x.toNat < z.toNat := by omega
            have hne : x.toNat ≠ z.toNat := by omega
            simp [lexLE, hne, hxz]
          · simp [lexLE, hyz] at hbc
            have hxz : x.toNat < z.toNat := by omega
            have hne : x.toNat ≠ z.toNat := by omega
            simp [lexLE, hne, hxz]

/-- The ranking relation is total, so any two candidates are comparable
and the final order is fully determined. -/
theorem rankLE_total : ∀ a b : MatchResult, rankLE a b ∨ rankLE b a := by
  intro a b
  rcases lt_trichotomy a.finalScore b.finalScore with hlt | heq | hgt
  · right; exact Or.inl hlt
  · rcases Nat.lt_trichotomy (simRank a) (simRank b) with slt | seq | sgt
    · left; exact Or.inr ⟨heq.symm, Or.inl slt⟩
    · rcases lexLE_total a.slug.data b.slug.data with hl | hl
      · left; exact Or.inr ⟨heq.symm, Or.inr ⟨seq, hl⟩⟩
      · right; exact Or.inr ⟨heq, Or.inr ⟨seq.symm, hl⟩⟩
    · right; exact Or.inr ⟨heq, Or.inl sgt⟩
  · left; exact Or.inl hgt

/-- The ranking relation is transitive. -/
theorem rankLE_trans :
    ∀ a b c : MatchResult, rankLE a b → rankLE b c → rankLE a c := by
  intro a b c hab hbc
  rcases hab with hab | ⟨heab, tab⟩
  · rcases hbc with hbc | ⟨hebc, _⟩
    · exact Or.inl (hbc.trans hab)
    · exact Or.inl (hebc ▸ hab)
  · rcases hbc with hbc | ⟨hebc, tbc⟩
    · exact Or.inl (heab ▸ hbc)
    · refine Or.inr ⟨hebc.trans heab, ?_⟩
      rcases tab with tab | ⟨seab, lab⟩
      · rcases tbc with tbc | ⟨sebc, _⟩
        · exact Or.inl (tab.trans tbc)
        · exact Or.inl (sebc ▸ tab)
      · rcases tbc with tbc | ⟨sebc, lbc⟩
        · exact Or.inl (seab ▸ tbc)
        · exact Or.inr ⟨seab.trans sebc, lexLE_trans _ _ _ lab lbc⟩

instance : IsTotal MatchResult rankLE := ⟨rankLE_total⟩

instance : IsTrans MatchResult rankLE := ⟨rankLE_trans⟩

/-- Anything ranked below has a final score no larger. -/
theorem rankLE_score {a b : MatchResult} (h : rankLE a b) :
    b.finalScore ≤ a.finalScore := by
  rcases h with h | ⟨h, _⟩
  · exact le_of_lt h
  · exact le_of_eq h

/-- Rank assignment only relabels: every member is a rank-update of a
member of the input list. -/
theorem mem_assignRanks :
    ∀ (l : List MatchResult) (n : Nat) (b : MatchResult),
      b ∈ assignRanks n l → ∃ a, a ∈ l ∧ ∃ i, b = { a with rank := i } := by
  intro l
  induction l with
  | nil => intro n b h; simp [assignRanks] at h
  | cons mh mt ih =>
    intro n b h
    rw [assignRanks] at h
    rcases List.mem_cons.mp h with h | h
    · exact ⟨mh, List.mem_cons_self mh mt, n, h⟩
    · obtain ⟨a, ha, i, hb⟩ := ih (n + 1) b h
      exact ⟨a, List.mem_cons_of_mem mh ha, i, hb⟩

/-- Rank assignment keeps the scheme ids, in order. -/
theorem map_scheme_id_assignRanks :
    ∀ (l : List MatchResult) (n : Nat),
      (assignRanks n l).map MatchResult.scheme_id =
        l.map MatchResult.scheme_id := by
  intro l
  induction l with
  | nil => intro n; rfl
  | cons mh mt ih => intro n; simp [assignRanks, ih (n + 1)]

/-- Rank assignment keeps the length. -/
theorem length_assignRanks :
    ∀ (l : List MatchResult) (n : Nat), (assignRanks n l).length = l.length := by
  intro l
  induction l with
  | nil => intro n; rfl
  | cons mh mt ih => intro n; simp [assignRanks, ih (n + 1)]

/-- The ranking relation ignores the rank field. -/
theorem rankLE_rank_update {a b : MatchResult} (i j : Nat) (h : rankLE a b) :
    rankLE { a with rank := i } { b with rank := j } :=
  h

/-- Rank assignment preserves sortedness, because the relation never
inspects the rank field. -/
theorem pairwise_assignRanks :
    ∀ (l : List MatchResult) (n : Nat),
      l.Pairwise rankLE → (assignRanks n l).Pairwise rankLE := by
  intro l
  induction l with
  | nil => intro n _; exact List.Pairwise.nil
  | cons mh mt ih =>
    intro n h
    rcases List.pairwise_cons.mp h with ⟨hhead, htail⟩
    rw [assignRanks]
    refine List.pairwise_cons.mpr ⟨?_, ih (n + 1) htail⟩
    intro b hb
    obtain ⟨a, ha, i, hbeq⟩ := mem_assignRanks mt (n + 1) b hb
    subst hbeq
    exact rankLE_rank_update n i (hhead a ha)

/-- A filterMap whose outputs carry their input as a key produces a list
whose keys form a sublist of the inputs. -/
theorem filterMap_key_sublist {α β : Type} (f : α → Option β) (key : β → α)
    (hkey : ∀ a b, f a = some b → key b = a) :
    ∀ l : List α, List.Sublist ((l.filterMap f).map key) l := by
  intro l
  induction l with
  | nil => simp
  | cons a t ih =>
    cases hfa : f a with
    | none =>
      rw [List.filterMap_cons_none hfa]
      exact ih.cons a
    | some b =>
      rw [List.filterMap_cons_some hfa]
      rw [List.map_cons, hkey a b hfa]
      exact ih.cons₂ a

/-- Inversion for a successful per-scheme scoring step: the scheme was
admitted and every field of the result is determined by the scheme, the
profile, the query and the similarity input. -/
theorem scoreScheme_some {q : String} {p : UserProfile} {sim : Option ℚ}
    {s : Scheme} {r : MatchResult} (h : scoreScheme q p sim s = some r) :
    (eligFilter s p).admitted = true ∧
      r = { scheme_id := s.id, slug := s.slug, similarity := sim,
            keyword := keywordScore q s,
            eligibility := (eligFilter s p).softScore,
            finalScore := fuse sim (keywordScore q s) ((eligFilter s p).softScore),
            matched_by := matchedBy sim (keywordScore q s) ((eligFilter s p).softScore),
            rank := 0 } := by
  by_cases ha : (eligFilter s p).admitted
  · refine ⟨ha, ?_⟩
    simp only [scoreScheme, ha, if_true] at h
    exact (Option.some_inj.mp h).symm
  · simp only [scoreScheme, Bool.not_eq_true] at ha
    simp only [scoreScheme, ha, if_false] at h
    cases h

/-- Inversion for the candidate pass: every scored candidate comes from an
admitted scheme of the snapshot, its fields are the fused scores of that
scheme, its similarity is absent in degrade mode and otherwise comes from
the vector candidate list. -/
theorem mem_scoredCandidates {q : String} {p : UserProfile}
    {vc : Option (List (Nat × ℚ))} {snap : IndexSnapshot} {m : MatchResult}
    (h : m ∈ scoredCandidates q p vc snap) :
    ∃ s, s ∈ snap.schemes ∧ (eligFilter s p).admitted = true ∧
      m.scheme_id = s.id ∧ m.slug = s.slug ∧
      m.keyword = keywordScore q s ∧
      m.eligibility = (eligFilter s p).softScore ∧
      m.finalScore = fuse m.similarity (keywordScore q s) ((eligFilter s p).softScore) ∧
      m.matched_by = matchedBy m.similarity (keywordScore q s) ((eligFilter s p).softScore) ∧
      (vc = none → m.similarity = none) ∧
      (∀ x, m.similarity = some x → ∃ c, c ∈ vc.getD [] ∧ c.2 = x) := by
  unfold scoredCandidates at h
  obtain ⟨i, _, hf⟩ := List.mem_filterMap.mp h
  cases hfind : snap.schemes.find? (fun s => s.id == i) with
  | none => rw [hfind] at hf; cases hf
  | some s =>
    rw [hfind] at hf
    have hs : s ∈ snap.schemes := List.mem_of_find?_eq_some hfind
    obtain ⟨hadm, hm⟩ := scoreScheme_some hf
    subst hm
    refine ⟨s, hs, hadm, rfl, rfl, rfl, rfl, rfl, rfl, ?_, ?_⟩
    · intro hvc
      subst hvc
      rfl
    · intro x hx
      cases hcf : (vc.getD []).find? (fun c => c.1 == i) with
      | none =>
        simp only [hcf, Option.map_none] at hx
        cases hx
      | some c =>
        simp only [hcf, Option.map_some] at hx
        exact ⟨c, List.mem_of_find?_eq_some hcf, (Option.some_inj.mp hx)⟩

/-- Inversion for the orchestrator output: every returned result agrees
with some scored candidate on every field except the assigned rank. -/
theorem mem_searchResults {q : String} {p : UserProfile}
    {opts : SearchOptions} {vc : Option (List (Nat × ℚ))}
    {snap : IndexSnapshot} {r : MatchResult}
    (h : r ∈ (searchSchemes q p opts vc snap).results) :
    ∃ m, m ∈ scoredCandidates q p vc snap ∧
      r.scheme_id = m.scheme_id ∧ r.slug = m.slug ∧
      r.similarity = m.similarity ∧ r.keyword = m.keyword ∧
      r.eligibility = m.eligibility ∧ r.finalScore = m.finalScore ∧
      r.matched_by = m.matched_by := by
  unfold searchSchemes at h
  simp only at h
  obtain ⟨a, ha, i, hr⟩ := mem_assignRanks _ 0 r h
  subst hr
  have ha2 : a ∈ List.insertionSort rankLE (scoredCandidates q p vc snap) := by
    cases hms : opts.minScore with
    | none =>
      rw [hms] at ha
      exact List.mem_of_mem_take (by simpa [orderedResults] using ha)
    | some t =>
      rw [hms] at ha
      have h2 := List.mem_of_mem_take ha
      exact (List.mem_filter.mp h2).1
  exact ⟨a, (List.mem_insertionSort rankLE).mp ha2, rfl, rfl, rfl, rfl, rfl, rfl, rfl⟩

/-- The Jaccard-style overlap always lies in [0, 1]. -/
theorem jaccard_bounds {α : Type} [DecidableEq α] (a b : List α) :
    0 ≤ jaccard a b ∧ jaccard a b ≤ 1 := by
  unfold jaccard
  by_cases hu : (a.dedup.union b.dedup).length = 0
  · simp [hu]
  · simp only [hu, if_false]
    have hinter : (a.dedup.inter b.dedup).length ≤ (a.dedup.union b.dedup).length := by
      refine List.Subperm.length_le (List.Nodup.subperm ?_ ?_)
      · exact List.Nodup.inter b.dedup (List.nodup_dedup a)
      · intro x hx
        exact List.mem_union_iff.mpr (Or.inl (List.mem_inter_iff.mp hx).1)
    have hupos : (0 : ℚ) < ((a.dedup.union b.dedup).length : ℚ) := by
      exact_mod_cast Nat.pos_of_ne_zero hu
    constructor
    · positivity
    · rw [div_le_one hupos]
      exact_mod_cast hinter

/-- The keyword score always lies in [0, 1]. -/
theorem keywordScore_bounds (q : String) (s : Scheme) :
    0 ≤ keywordScore q s ∧ keywordScore q s ≤ 1 :=
  jaccard_bounds _ _

/-- At most four non-required categorical flags can match. -/
theorem matchedFlagCount_le_four (s : Scheme) (p : UserProfile) :
    matchedFlagCount s p ≤ 4 := by
  unfold matchedFlagCount
  split_ifs <;> omega

/-- The soft eligibility score always lies in [0, 1]. -/
theorem softScore_bounds (s : Scheme) (p : UserProfile) :
    0 ≤ softScoreFn s p ∧ softScoreFn s p ≤ 1 := by
  obtain ⟨hc0, hc1⟩ := jaccard_bounds s.caste p.caste
  have hf4 : ((matchedFlagCount s p : ℚ)) ≤ 4 := by
    exact_mod_cast matchedFlagCount_le_four s p
  have hf0 : (0 : ℚ) ≤ (matchedFlagCount s p : ℚ) := by positivity
  unfold softScoreFn casteOverlap
  constructor <;> linarith

/-- Fused scores stay in [0, 1] when every component does. -/
theorem fuse_bounds (sim : Option ℚ) (k e : ℚ)
    (hs : ∀ x, sim = some x → 0 ≤ x ∧ x ≤ 1)
    (hk0 : 0 ≤ k) (hk1 : k ≤ 1) (he0 : 0 ≤ e) (he1 : e ≤ 1) :
    0 ≤ fuse sim k e ∧ fuse sim k e ≤ 1 := by
  cases sim with
  | none =>
    unfold fuse
    constructor <;> linarith
  | some x =>
    obtain ⟨hx0, hx1⟩ := hs x rfl
    unfold fuse
    constructor <;> linarith

/-- With similarity absent the provenance is keyword or rule, never
vector or hybrid. -/
theorem matchedBy_none (k e : ℚ) :
    matchedBy none k e = "keyword" ∨ matchedBy none k e = "rule" := by
  unfold matchedBy
  split_ifs <;> simp

/-- The provenance computed by score fusion always lies in the closed
four-value enumeration. -/
theorem matchedBy_closed (sim : Option ℚ) (k e : ℚ) :
    matchedBy sim k e ∈ matchedByValues := by
  cases sim with
  | none =>
    simp only [matchedBy]
    split
    · simp [matchedByValues]
    · split <;> simp [matchedByValues]
  | some x =>
    simp only [matchedBy]
    split
    · simp [matchedByValues]
    · split
      · simp [matchedByValues]
      · split
        · simp [matchedByValues]
        · split <;> simp [matchedByValues]

/-- Scheme ids of the scored candidates form a sublist of the
deduplicated candidate-id list. -/
theorem scored_ids_sublist (q : String) (p : UserProfile)
    (vc : Option (List (Nat × ℚ))) (snap : IndexSnapshot) :
    List.Sublist
      ((scoredCandidates q p vc snap).map MatchResult.scheme_id)
      (((vc.getD []).map Prod.fst ++ snap.schemes.map Scheme.id).dedup) := by
  unfold scoredCandidates
  refine filterMap_key_sublist _ _ ?_ _
  intro i r hr
  cases hfind : snap.schemes.find? (fun s => s.id == i) with
  | none => rw [hfind] at hr; cases hr
  | some s =>
    rw [hfind] at hr
    obtain ⟨_, hreq⟩ := scoreScheme_some hr
    have hid : s.id = i := by
      have := List.find?_some hfind
      simpa using this
    subst hreq
    exact hid

/-- The scored candidates carry pairwise-distinct scheme ids. -/
theorem scored_ids_nodup (q : String) (p : UserProfile)
    (vc : Option (List (Nat × ℚ))) (snap : IndexSnapshot) :
    ((scoredCandidates q p vc snap).map MatchResult.scheme_id).Nodup :=
  List.Nodup.sublist (scored_ids_sublist q p vc snap)
    (List.nodup_dedup _)

/-- The returned result list is sorted by the ranking relation. -/
theorem results_sorted (q : String) (p : UserProfile) (opts : SearchOptions)
    (vc : Option (List (Nat × ℚ))) (snap : IndexSnapshot) :
    List.Sorted rankLE (searchSchemes q p opts vc snap).results := by
  unfold searchSchemes
  simp only
  apply pairwise_assignRanks
  apply List.Pairwise.sublist (List.take_sublist _ _)
  cases hms : opts.minScore with
  | none => exact List.sorted_insertionSort rankLE _
  | some t =>
    exact List.Pairwise.filter _ (List.sorted_insertionSort rankLE _)

/-- A scheme rejected by the eligibility filter never surfaces in the
results, whatever the query, options and vector candidates. -/
theorem excluded_of_not_admitted {q : String} {p : UserProfile}
    {opts : SearchOptions} {vc : Option (List (Nat × ℚ))}
    {snap : IndexSnapshot} {s : Scheme}
    (hs : s ∈ snap.schemes) (hnodup : (snap.schemes.map Scheme.id).Nodup)
    (hadm : (eligFilter s p).admitted = false) :
    s.id ∉ (searchSchemes q p opts vc snap).results.map MatchResult.scheme_id := by
  intro hmem
  obtain ⟨r, hr, hid⟩ := List.mem_map.mp hmem
  obtain ⟨m, hm, hrid, _⟩ := mem_searchResults hr
  obtain ⟨s', hs', hadm', hmid, _⟩ := mem_scoredCandidates hm
  have hss : s' = s := by
    refine List.inj_on_of_nodup_map hnodup hs' hs ?_
    show s'.id = s.id
    rw [← hmid, ← hrid, hid]
  rw [hss, hadm] at hadm'
  cases hadm'

/-- Claim C1: for every scheme with min_age and max_age set and every
profile whose age is set and lies outside [min_age, max_age] inclusive,
the scheme is excluded from the returned results (a hard constraint,
regardless of similarity or keyword score); a profile with unset age is
never excluded by the age rule. -/
theorem claim_C1_age_hard_constraint :
    (∀ (q : String) (p : UserProfile) (opts : SearchOptions)
        (vc : Option (List (Nat × ℚ))) (snap : IndexSnapshot)
        (s : Scheme) (lo hi a : Nat),
        s ∈ snap.schemes → (snap.schemes.map Scheme.id).Nodup →
        s.min_age = some lo → s.max_age = some hi → p.age = some a →
        (a < lo ∨ hi < a) →
        s.id ∉ (searchSchemes q p opts vc snap).results.map MatchResult.scheme_id) ∧
      (∀ (s : Scheme) (p : UserProfile), p.age = none → ageOk s p = true) := by
  constructor
  · intro q p opts vc snap s lo hi a hs hnodup hmin hmax hage hout
    have hageok : ageOk s p = false := by
      rcases hout with h | h
      · have hno : ¬ (lo ≤ a) := by omega
        simp [ageOk, hage, hmin, hmax, hno]
      · have hno : ¬ (a ≤ hi) := by omega
        simp [ageOk, hage, hmin, hmax, hno]
    have hadm : (eligFilter s p).admitted = false := by
      simp [eligFilter, hardOk, hageok]
    exact excluded_of_not_admitted hs hnodup hadm
  · intro s p hage
    simp [ageOk, hage]

unseal Rat.add Rat.mul Rat.inv Rat.sub in
/-- Witness for C1: the 70-year-old profile never sees scheme A, whose
age band is 18 to 60. -/
theorem claim_C1_witness :
    schemeA.id ∉
      (searchSchemes "zzz" oldMale defaultOptions none snap0).results.map
        MatchResult.scheme_id :=
  claim_C1_age_hard_constraint.1 "zzz" oldMale defaultOptions none snap0
    schemeA 18 60 70 (by decide) (by decide) rfl rfl rfl (by omega)

/-- Claim C2: a scheme whose gender is not `any` is excluded whenever the
profile gender is set and differs, regardless of similarity or keyword
score; gender `any` always passes and an unset profile gender never
excludes. -/
theorem claim_C2_gender_hard_constraint :
    (∀ (q : String) (p : UserProfile) (opts : SearchOptions)
        (vc : Option (List (Nat × ℚ))) (snap : IndexSnapshot)
        (s : Scheme) (g : Gender),
        s ∈ snap.schemes → (snap.schemes.map Scheme.id).Nodup →
        s.gender ≠ Gender.any → p.gender = some g → g ≠ s.gender →
        s.id ∉ (searchSchemes q p opts vc snap).results.map MatchResult.scheme_id) ∧
      (∀ (s : Scheme) (p : UserProfile), s.gender = Gender.any →
        genderOk s p = true) ∧
      (∀ (s : Scheme) (p : UserProfile), p.gender = none →
        genderOk s p = true) := by
  refine ⟨?_, ?_, ?_⟩
  · intro q p opts vc snap s g hs hnodup hany hpg hne
    have hgok : genderOk s p = false := by
      cases hsg : s.gender with
      | any => exact absurd hsg hany
      | male =>
        have : ¬ (Gender.male = g) := fun h => hne (by rw [hsg, ← h])
        simp [genderOk, hsg, hpg, this]
      | female =>
        have : ¬ (Gender.female = g) := fun h => hne (by rw [hsg, ← h])
        simp [genderOk, hsg, hpg, this]
    have hadm : (eligFilter s p).admitted = false := by
      simp [eligFilter, hardOk, hgok]
    exact excluded_of_not_admitted hs hnodup hadm
  · intro s p hany
    simp [genderOk, hany]
  · intro s p hpg
    cases hsg : s.gender <;> simp [genderOk, hsg, hpg]

unseal Rat.add Rat.mul Rat.inv Rat.sub in
/-- Witness for C2: the male-only profile never sees the women-only
scheme B, whatever its text similarity. -/
theorem claim_C2_witness :
    schemeB.id ∉
      (searchSchemes "study grant" maleProfile defaultOptions
          (some [(2, 9/10)]) snap0).results.map MatchResult.scheme_id :=
  claim_C2_gender_hard_constraint.1 "study grant" maleProfile defaultOptions
    (some [(2, 9/10)]) snap0 schemeB Gender.male (by decide) (by decide)
    (by decide) rfl (by decide)

/-- Claim C3: the scheme search is deterministic — two calls with
identical query, profile, options, embedder/index output and snapshot
return identical ordered results, and the returned order follows the
tie-break relation (descending finalScore, then presence of a non-zero
similarity contribution, then ascending slug). -/
theorem claim_C3_determinism :
    ∀ (q q' : String) (p p' : UserProfile) (o o' : SearchOptions)
      (vc vc' : Option (List (Nat × ℚ))) (snap snap' : IndexSnapshot),
      (q = q' → p = p' → o = o' → vc = vc' → snap = snap' →
        searchSchemes q p o vc snap = searchSchemes q' p' o' vc' snap') ∧
        List.Sorted rankLE (searchSchemes q p o vc snap).results := by
  intro q q' p p' o o' vc vc' snap snap'
  constructor
  · intro h1 h2 h3 h4 h5
    subst h1; subst h2; subst h3; subst h4; subst h5
    rfl
  · exact results_sorted q p o vc snap

/-- Witness for C3: two identical calls coincide on a concrete input. -/
theorem claim_C3_witness :
    searchSchemes "farmer" emptyProfile defaultOptions none snap0 =
      searchSchemes "farmer" emptyProfile defaultOptions none snap0 :=
  (claim_C3_determinism "farmer" "farmer" emptyProfile emptyProfile
      defaultOptions defaultOptions none none snap0 snap0).1
    rfl rfl rfl rfl rfl

/-- Claim C4: when the embedder or index is unavailable the call still
succeeds, the outcome is flagged degraded, and every returned result is
sourced from keyword or rule matching. -/
theorem claim_C4_embedder_failure_degrades :
    ∀ (q : String) (p : UserProfile) (opts : SearchOptions)
      (snap : IndexSnapshot),
      (searchSchemes q p opts none snap).degraded = true ∧
        ∀ r ∈ (searchSchemes q p opts none snap).results,
          r.matched_by = "keyword" ∨ r.matched_by = "rule" := by
  intro q p opts snap
  constructor
  · rfl
  · intro r hr
    obtain ⟨m, hm, _, _, hsim, _, _, _, hmb⟩ := mem_searchResults hr
    obtain ⟨s, _, _, _, _, _, _, _, hmmb, hnone, _⟩ := mem_scoredCandidates hm
    have hmsim : m.similarity = none := hnone rfl
    rw [hmb, hmmb, hmsim]
    exact matchedBy_none _ _

unseal Rat.add Rat.mul Rat.inv Rat.sub in
/-- Witness for C4: a concrete degraded call returns a rule-matched
result and the degraded flag. -/
theorem claim_C4_witness :
    (searchSchemes "zzz" emptyProfile defaultOptions none snap0).degraded = true ∧
      (matchRule0.matched_by = "keyword" ∨ matchRule0.matched_by = "rule") :=
  ⟨(claim_C4_embedder_failure_degrades "zzz" emptyProfile defaultOptions snap0).1,
    (claim_C4_embedder_failure_degrades "zzz" emptyProfile defaultOptions snap0).2
      matchRule0 (by decide)⟩

unseal Rat.add Rat.mul Rat.inv Rat.sub in
/-- Counterexample for C5: the persistence path of the shipped code
(`User.saveSchemeMatch` over the `user_scheme_matches` table, whose
`matched_by` column is `VARCHAR(50)` without a CHECK constraint) accepts
and stores a `matched_by` value outside the four-value enumeration, so
"never any other string" does not hold for persisted MatchResults. -/
theorem claim_C5_counterexample :
    saveSchemeMatch 1 2 (1/2) "similarity" [] =
        some [{ user_id := 1, scheme_id := 2, score := 1/2,
                matched_by := "similarity" }] ∧
      "similarity" ∉ matchedByValues := by
  constructor
  · decide
  · decide

/-- Claim C5 as amended: every MatchResult produced by the matching
engine carries a `matched_by` value from the closed enumeration
{vector, keyword, rule, hybrid}; the persistence layer, however, stores
`matched_by` as free text and does not itself enforce the enumeration. -/
theorem claim_C5_matched_by_closed :
    ∀ (q : String) (p : UserProfile) (opts : SearchOptions)
      (vc : Option (List (Nat × ℚ))) (snap : IndexSnapshot),
      ∀ r ∈ (searchSchemes q p opts vc snap).results,
        r.matched_by ∈ matchedByValues := by
  intro q p opts vc snap r hr
  obtain ⟨m, hm, _, _, _, _, _, _, hmb⟩ := mem_searchResults hr
  obtain ⟨s, _, _, _, _, _, _, _, hmmb, _, _⟩ := mem_scoredCandidates hm
  rw [hmb, hmmb]
  exact matchedBy_closed _ _ _

unseal Rat.add Rat.mul Rat.inv Rat.sub in
/-- Witness for the amended C5 on a concrete returned result. -/
theorem claim_C5_witness :
    matchRule0.matched_by ∈ matchedByValues :=
  claim_C5_matched_by_closed "zzz" emptyProfile defaultOptions none snap0
    matchRule0 (by decide)

/-- Claim C6: whenever the supplied similarities lie in [0,1], every
returned finalScore lies in [0,1]; with similarity present it equals
similarity/2 + keyword/5 + 3*eligibility/10, and with similarity absent
the remaining weights renormalize to 2/5 and 3/5. -/
theorem claim_C6_finalScore_bounds :
    ∀ (q : String) (p : UserProfile) (opts : SearchOptions)
      (vc : Option (List (Nat × ℚ))) (snap : IndexSnapshot),
      (∀ c ∈ vc.getD [], 0 ≤ c.2 ∧ c.2 ≤ 1) →
      ∀ r ∈ (searchSchemes q p opts vc snap).results,
        (0 ≤ r.finalScore ∧ r.finalScore ≤ 1) ∧
          (∀ x, r.similarity = some x →
            r.finalScore = 1/2 * x + 1/5 * r.keyword + 3/10 * r.eligibility) ∧
          (r.similarity = none →
            r.finalScore = 2/5 * r.keyword + 3/5 * r.eligibility) := by
  intro q p opts vc snap hvc r hr
  obtain ⟨m, hm, _, _, hsim, hkw, helig, hfs, _⟩ := mem_searchResults hr
  obtain ⟨s, hs, _, _, _, hmkw, hmelig, hmfs, _, _, hsome⟩ :=
    mem_scoredCandidates hm
  have hks := keywordScore_bounds q s
  have hes := softScore_bounds s p
  have hsb : ∀ x, m.similarity = some x → 0 ≤ x ∧ x ≤ 1 := by
    intro x hx
    obtain ⟨c, hc, hcx⟩ := hsome x hx
    exact hcx ▸ hvc c hc
  refine ⟨?_, ?_, ?_⟩
  · rw [hfs, hmfs]
    exact fuse_bounds m.similarity (keywordScore q s) ((eligFilter s p).softScore)
      hsb hks.1 hks.2 hes.1 hes.2
  · intro x hx
    have hmx : m.similarity = some x := by rw [← hsim]; exact hx
    rw [hfs, hmfs, hmx, hkw, hmkw, helig, hmelig]
    rfl
  · intro hx
    have hmx : m.similarity = none := by rw [← hsim]; exact hx
    rw [hfs, hmfs, hmx, hkw, hmkw, helig, hmelig]
    rfl

unseal Rat.add Rat.mul Rat.inv Rat.sub in
/-- Witness for C6: the concrete vector-matched result has a final score
inside [0,1]. -/
theorem claim_C6_witness :
    0 ≤ matchVec1.finalScore ∧ matchVec1.finalScore ≤ 1 :=
  (claim_C6_finalScore_bounds "zzz" emptyProfile defaultOptions
      (some [(1, 1/2)]) snap0 (by decide) matchVec1 (by decide)).1

/-- Claim C7: a results list never contains two entries for the same
scheme id, whatever the query, profile, options, vector candidates and
snapshot — a scheme surfaced by both paths is merged, not emitted twice. -/
theorem claim_C7_results_nodup :
    ∀ (q : String) (p : UserProfile) (opts : SearchOptions)
      (vc : Option (List (Nat × ℚ))) (snap : IndexSnapshot),
      ((searchSchemes q p opts vc snap).results.map
          MatchResult.scheme_id).Nodup := by
  intro q p opts vc snap
  unfold searchSchemes
  simp only
  rw [map_scheme_id_assignRanks]
  have hsorted :
      ((List.insertionSort rankLE (scoredCandidates q p vc snap)).map
          MatchResult.scheme_id).Nodup :=
    (((List.perm_insertionSort rankLE _).map _).nodup_iff).mpr
      (scored_ids_nodup q p vc snap)
  cases hms : opts.minScore with
  | none =>
    exact List.Nodup.sublist (List.Sublist.map _ (List.take_sublist _ _)) hsorted
  | some t =>
    refine List.Nodup.sublist ?_ hsorted
    exact (List.Sublist.map _ (List.take_sublist _ _)).trans
      (List.Sublist.map _ (List.filter_sublist _))

/-- Claim C8: the limit option defaults to 3 and truncates the ordered
list — with more admitted candidates than the limit, exactly `limit`
results come back and each outscores every candidate left behind. -/
theorem claim_C8_limit_truncates :
    defaultOptions.limit = 3 ∧
      ∀ (q : String) (p : UserProfile) (vc : Option (List (Nat × ℚ)))
        (snap : IndexSnapshot) (n : Nat),
        n < (scoredCandidates q p vc snap).length →
        ((searchSchemes q p { limit := n, minScore := none } vc snap).results.length = n ∧
          ∀ r ∈ (searchSchemes q p { limit := n, minScore := none } vc snap).results,
            ∀ m ∈ (orderedResults q p vc snap).drop n,
              m.finalScore ≤ r.finalScore) := by
  constructor
  · rfl
  · intro q p vc snap n hn
    have hlen : (orderedResults q p vc snap).length =
        (scoredCandidates q p vc snap).length :=
      (List.perm_insertionSort rankLE _).length_eq
    constructor
    · show (assignRanks 0 ((orderedResults q p vc snap).take n)).length = n
      rw [length_assignRanks, List.length_take]
      omega
    · intro r hr m hm
      have hr' : r ∈ assignRanks 0 ((orderedResults q p vc snap).take n) := hr
      obtain ⟨a, ha, i, hre⟩ := mem_assignRanks _ 0 r hr'
      have hsort : List.Sorted rankLE (orderedResults q p vc snap) :=
        List.sorted_insertionSort rankLE _
      have hrel := List.Sorted.rel_of_mem_take_of_mem_drop hsort ha hm
      have hle := rankLE_score hrel
      subst hre
      exact hle

unseal Rat.add Rat.mul Rat.inv Rat.sub in
/-- Witness for C8: with limit 1 and two admitted candidates, exactly one
result comes back. -/
theorem claim_C8_witness :
    (searchSchemes "zzz" emptyProfile { limit := 1, minScore := none } none
        snap0).results.length = 1 :=
  (claim_C8_limit_truncates.2 "zzz" emptyProfile none snap0 1 (by decide)).1

/-- Claim C9: persistence is best-effort — whatever the MatchRecorder
does, including failing, the outcome returned by the orchestrator is
exactly the search outcome: the persist step never blocks, changes or
fails the caller's result. -/
theorem claim_C9_persist_best_effort :
    ∀ (persist : List MatchResult → Except String Unit) (q : String)
      (p : UserProfile) (opts : SearchOptions)
      (vc : Option (List (Nat × ℚ))) (snap : IndexSnapshot),
      searchAndRecord persist q p opts vc snap =
        searchSchemes q p opts vc snap := by
  intro persist q p opts vc snap
  unfold searchAndRecord recordMatches
  cases hp : persist (searchSchemes q p opts vc snap).results <;> simp [hp]

/-- Claim C10: when the backend returns no data or an empty list, the bot
service returns the fixed no-results message instead of throwing; an
error is thrown only when the backend request itself failed, and then it
is the fixed failure message. -/
theorem claim_C10_no_results_message :
    (searchSchemesBot (Except.ok none) = Except.ok noSchemesMsg) ∧
      (searchSchemesBot (Except.ok (some [])) = Except.ok noSchemesMsg) ∧
      (∀ (resp : Except String (Option (List SchemeInfo))) (msg : String),
        searchSchemesBot resp = Except.error msg →
          isErr resp = true ∧ msg = "Failed to search schemes") ∧
      (∀ e : String,
        searchSchemesBot (Except.error e) =
          Except.error "Failed to search schemes") := by
  refine ⟨rfl, rfl, ?_, fun e => rfl⟩
  intro resp msg h
  cases resp with
  | error e =>
    refine ⟨rfl, ?_⟩
    injection h with h2
    exact h2.symm
  | ok data =>
    cases data with
    | none => exact Except.noConfusion h
    | some l =>
      cases l with
      | nil => exact Except.noConfusion h
      | cons a t => exact Except.noConfusion h

/-- Witness for C10: a concrete failed backend request yields the fixed
error, certified through the claim theorem. -/
theorem claim_C10_witness :
    isErr (Except.error "boom" : Except String (Option (List SchemeInfo))) = true ∧
      "Failed to search schemes" = "Failed to search schemes" :=
  claim_C10_no_results_message.2.2.1 (Except.error "boom")
    "Failed to search schemes" rfl
